import Mathlib

/-!
# Verification of the growwise-advisor recommendation core

Shallow embedding of the crop-recommendation orchestration layer of the
growwise-advisor repository, together with proofs about its behaviour.

The embedded code is:

* the Supabase edge function `serve` handler (src/unnamed/part_000, first
  document, lines 41-428): request-body cache lookup, required-field
  validation, the Gemini retry loop, the schema repair pass over
  `parsedResponse.categories`, the cache write, and the hardcoded fallback
  response;
* the client hook `getCropRecommendations` (src/src/hooks/useGeminiAI.ts,
  first document, lines 54-121): the in-place water-availability
  conversion on the caller's `FarmData` record.

Numbers are modelled as rationals (`ℚ`); IEEE-754 rounding artefacts of
JavaScript numbers are not modelled, and no theorem below depends on
them.  Timestamps (`Date.now()` values) are modelled as integers
(milliseconds).
-/

/-! ## Typed data model

The `CropRecommendation` / `CropCategory` / `RecommendationResult` shapes
from useGeminiAI.ts (and the JSON schema demanded by the edge-function
prompt).  `isTopPick` is a boolean and `score` a number, exactly as the
interfaces declare. -/

structure Crop where
  name : String
  description : String
  estimatedProfit : ℚ
  marketPrice : ℚ
  score : ℚ
  growthPeriod : String
  waterRequirements : String
  soilCompatibility : List String
  isTopPick : Bool
  maturityPeriod : String
  bestPlantingTime : Option String
deriving Repr, DecidableEq

structure CropCategory where
  type : String
  crops : List Crop
deriving Repr, DecidableEq

structure RecommendationResult where
  categories : List CropCategory
  reasoning : String
deriving Repr, DecidableEq

/-! ## Schema normalizer, typed level (part_000 lines 289-314)

The edge function maps over `parsedResponse.categories`; per category it

```js
let hasTopPick = false;
category.crops = category.crops.map(crop => {
  if (crop.isTopPick) {
    if (hasTopPick) { crop.isTopPick = false; } else { hasTopPick = true; }
  }
  return crop;
});
if (!hasTopPick && category.crops.length > 0) {
  const highestScoringCrop = category.crops.reduce(
    (prev, current) => (prev.score > current.score) ? prev : current
  );
  highestScoringCrop.isTopPick = true;
}
```

`enforceSingleTopPick` is the stateful `map` (the `hasTopPick` flag is the
second argument / second component).  `highestScoringIdx` is the index of
the crop the `reduce` returns: the JS callback keeps `prev` only when
`prev.score > current.score` is strictly true, so on ties the *current*
(later) crop wins; the mutation `highestScoringCrop.isTopPick = true` is
modelled as a positional update at that index. -/

/-- Effect of the first map pass on a crop once `hasTopPick` is already
true: a flagged crop is forced to `false`, others are returned as-is. -/
def clearTopPick (c : Crop) : Crop :=
  if c.isTopPick then { c with isTopPick := false } else c

/-- The first repair pass (`category.crops.map(...)` with the mutable
`hasTopPick` flag threaded through).  Returns the rewritten list and the
final value of `hasTopPick`. -/
def enforceSingleTopPick : List Crop → Bool → List Crop × Bool
  | [], has => ([], has)
  | c :: rest, has =>
    if c.isTopPick then
      if has then
        let r := enforceSingleTopPick rest true
        ({ c with isTopPick := false } :: r.1, r.2)
      else
        let r := enforceSingleTopPick rest true
        (c :: r.1, r.2)
    else
      let r := enforceSingleTopPick rest has
      (c :: r.1, r.2)

/-- Index of the element returned by
`crops.reduce((prev, current) => (prev.score > current.score) ? prev : current)`.
`prev`/`prevIdx` is the running accumulator, `curIdx` the index of the head
of the remaining list. -/
def topIdxAux : Crop → ℕ → List Crop → ℕ → ℕ
  | _, prevIdx, [], _ => prevIdx
  | prev, prevIdx, cur :: rest, curIdx =>
    if prev.score > cur.score then
      topIdxAux prev prevIdx rest (curIdx + 1)
    else
      topIdxAux cur curIdx rest (curIdx + 1)

/-- Index of the crop the JS `reduce` picks (meaningful for non-empty
lists; `reduce` on `[]` would throw in JS, but the guard
`category.crops.length > 0` rules that out). -/
def highestScoringIdx : List Crop → ℕ
  | [] => 0
  | c :: rest => topIdxAux c 0 rest 1

/-- `highestScoringCrop.isTopPick = true`: set the flag of the crop at
position `i`. -/
def setTopPickAt : List Crop → ℕ → List Crop
  | [], _ => []
  | c :: rest, 0 => { c with isTopPick := true } :: rest
  | c :: rest, n + 1 => c :: setTopPickAt rest n

/-- The per-category body of `parsedResponse.categories.map(...)`. -/
def normalizeCategory (cat : CropCategory) : CropCategory :=
  let r := enforceSingleTopPick cat.crops false
  if !r.2 && decide (0 < r.1.length) then
    { cat with crops := setTopPickAt r.1 (highestScoringIdx r.1) }
  else
    { cat with crops := r.1 }

/-- The whole schema-repair pass over an accepted parsed response
(`categories` already known to be a list of categories; at the typed
level the step-2 defaulting of a missing `crops` field is the identity,
since `CropCategory.crops` is always a list). -/
def normalizeResult (r : RecommendationResult) : RecommendationResult :=
  { r with categories := r.categories.map normalizeCategory }

/-- The fixed standard category list (§3 of the spec; the seven `type`
labels the edge-function prompt asks for). -/
def standardCategories : List String :=
  ["Grains & Cereals", "Legumes & Pulses", "Vegetables",
   "Root Crops & Tubers", "Fruits & Berries", "Oil & Fiber Crops",
   "Specialty & High-Value Crops"]

/-! ## Fallback result (part_000 lines 351-414) -/

/-- The hardcoded fallback response body returned after all attempts
fail, field for field as in the source. -/
def fallbackResult : RecommendationResult :=
  { categories :=
      [ { type := "Grains & Cereals"
        , crops :=
            [ { name := "Wheat (Fallback)"
              , description := "This is fallback data due to API issues. We recommend trying again later for accurate recommendations."
              , estimatedProfit := 800
              , marketPrice := 7.5
              , score := 75
              , growthPeriod := "3-4 months"
              , waterRequirements := "Medium"
              , soilCompatibility := ["Loamy", "Clay-loam"]
              , isTopPick := true
              , maturityPeriod := "110-130 days"
              , bestPlantingTime := some "Early Spring" } ] }
      , { type := "Vegetables"
        , crops :=
            [ { name := "Tomatoes (Fallback)"
              , description := "This is fallback data due to API issues. We recommend trying again later for accurate recommendations."
              , estimatedProfit := 1200
              , marketPrice := 3.5
              , score := 80
              , growthPeriod := "2-3 months"
              , waterRequirements := "High"
              , soilCompatibility := ["Sandy loam", "Loamy"]
              , isTopPick := true
              , maturityPeriod := "70-85 days"
              , bestPlantingTime := some "After last frost" } ] }
      , { type := "Legumes & Pulses"
        , crops :=
            [ { name := "Soybeans (Fallback)"
              , description := "This is fallback data due to API issues. We recommend trying again later for accurate recommendations."
              , estimatedProfit := 950
              , marketPrice := 14.25
              , score := 85
              , growthPeriod := "3-5 months"
              , waterRequirements := "Medium"
              , soilCompatibility := ["Sandy", "Loamy"]
              , isTopPick := true
              , maturityPeriod := "100-120 days"
              , bestPlantingTime := some "Late Spring" } ] } ]
  , reasoning := "This is fallback data due to API connection issues. Please try again later for personalized recommendations based on your farm data." }

/-! ## Result cache (part_000 lines 30-39, 84-95, 316-320) -/

/-- One cache slot: `{ data, timestamp }`. -/
structure CacheEntry where
  data : RecommendationResult
  timestamp : ℤ
deriving DecidableEq

/-- The in-memory `cache` object, as a map from the stringified request
to an optional entry. -/
def CacheMap : Type := String → Option CacheEntry

/-- `CACHE_TTL = 24 * 60 * 60 * 1000`. -/
def CACHE_TTL : ℤ := 24 * 60 * 60 * 1000

/-- The freshness test of lines 88-92:
`cache[cacheKey] && (now - cache[cacheKey].timestamp < CACHE_TTL)`,
yielding the cached data when it passes. -/
def cacheGet (c : CacheMap) (key : String) (now : ℤ) : Option RecommendationResult :=
  match c key with
  | some e => if now - e.timestamp < CACHE_TTL then some e.data else none
  | none => none

/-- The cache write of lines 317-320:
`cache[cacheKey] = { data, timestamp: Date.now() }`. -/
def cachePut (c : CacheMap) (key : String) (r : RecommendationResult) (t : ℤ) : CacheMap :=
  fun k => if k = key then some { data := r, timestamp := t } else c k

/-- The cache-lookup step of the handler, lines 88-95: read the entry and
return the (unmodified) cache alongside — the source never deletes or
rewrites an entry on the read path. -/
def cacheCheck (c : CacheMap) (key : String) (now : ℤ) :
    Option RecommendationResult × CacheMap :=
  (cacheGet c key now, c)

/-! ## Untyped JavaScript values

The edge function manipulates the parsed, untrusted JSON (`farmData`,
`parsedResponse`) before any typing is established; claims about
validation, cache keys and normalization totality live at this level.
`JsValue` covers the values `JSON.parse` can produce plus `undefined`
(the result of reading an absent property).  Objects are ordered field
lists; parsed JSON objects never contain duplicate keys (later duplicates
overwrite during parsing), so field lists are duplicate-free wherever it
matters and lookup takes the first match. -/

inductive JsValue where
  | null
  | undefined
  | boolean (b : Bool)
  | number (q : ℚ)
  | string (s : String)
  | array (elems : List JsValue)
  | object (fields : List (String × JsValue))
deriving Repr

/-- JS truthiness: `null`, `undefined`, `false`, `0` and `""` are falsy
(`NaN`, the remaining falsy value, has no exact-rational counterpart). -/
def jsTruthy : JsValue → Bool
  | .null => false
  | .undefined => false
  | .boolean b => b
  | .number q => !(q = 0)
  | .string s => !(s = "")
  | .array _ => true
  | .object _ => true

/-- First-match field lookup in an object's field list; absent keys read
as `undefined`. -/
def lookupFieldD : List (String × JsValue) → String → JsValue
  | [], _ => .undefined
  | (k, v) :: rest, key => if k = key then v else lookupFieldD rest key

/-- Property assignment `obj[key] = v` on an object: an existing key keeps
its position, a new key is appended (JS property insertion order). -/
def setFieldObj : List (String × JsValue) → String → JsValue → List (String × JsValue)
  | [], key, v => [(key, v)]
  | (k, w) :: rest, key, v =>
    if k = key then (k, v) :: rest else (k, w) :: setFieldObj rest key v

/-- Property read `v.key` for a value on which JS property access does not
throw (anything but `null`/`undefined`).  Only objects carry fields in
this model; reading a named property off a primitive or an array yields
`undefined` (built-in own properties such as `length` are never read by
the embedded code). -/
def jsGetD : JsValue → String → JsValue
  | .object fs, key => lookupFieldD fs key
  | _, _ => .undefined

/-! ### `JSON.stringify`

Faithful on the values the theorems below serialize: strings without
control characters, and numbers whose decimal expansion terminates (every
JavaScript float does; shortest-round-trip printing and the exponent
notation used beyond 1e21 are not modelled).  `undefined`-valued object
fields are omitted, as `JSON.stringify` does. -/

/-- Smallest number of decimal digits after the point needed to write `q`
exactly, when at most 1100 suffice (1100 covers every IEEE-754 double). -/
def ratDecimalExp (q : ℚ) : Option ℕ :=
  (List.range 1100).find? fun k => (q * (10 : ℚ) ^ k).den = 1

/-- Decimal rendering of a JSON number. -/
def ratToJsonString (q : ℚ) : String :=
  match ratDecimalExp q with
  | some 0 => toString q.num
  | some (k + 1) =>
      let n : ℤ := (q * (10 : ℚ) ^ (k + 1)).num
      let a : ℕ := n.natAbs
      let fracStr := toString (a % 10 ^ (k + 1))
      let pad := String.mk (List.replicate (k + 1 - fracStr.length) '0')
      (if n < 0 then "-" else "") ++ toString (a / 10 ^ (k + 1)) ++ "." ++ pad ++ fracStr
  | none => toString q.num ++ "/" ++ toString q.den

/-- JSON string escaping for quotes and backslashes (the only escapes any
serialized value below needs). -/
def jsonEscapeChar (c : Char) : String :=
  if c = '"' then "\\\"" else if c = '\\' then "\\\\" else String.singleton c

/-- A JSON string literal. -/
def jsonQuote (s : String) : String :=
  "\"" ++ String.join (s.toList.map jsonEscapeChar) ++ "\""

mutual
/-- `JSON.stringify`, the cache-key serialization of line 85:
`const cacheKey = JSON.stringify(farmData)`.  Object fields are emitted
in their stored (insertion) order — `JSON.stringify` does not sort
keys. -/
def jsonStringify : JsValue → String
  | .null => "null"
  | .undefined => "null"
  | .boolean b => cond b "true" "false"
  | .number q => ratToJsonString q
  | .string s => jsonQuote s
  | .array es => "[" ++ String.intercalate "," (jsonElemStrings es) ++ "]"
  | .object fs => "\x7b" ++ String.intercalate "," (jsonFieldStrings fs) ++ "\x7d"

/-- Rendered array elements, in order. -/
def jsonElemStrings : List JsValue → List String
  | [] => []
  | v :: rest => jsonStringify v :: jsonElemStrings rest

/-- Rendered `"key":value` pairs, in stored field order, skipping
`undefined`-valued fields as `JSON.stringify` does. -/
def jsonFieldStrings : List (String × JsValue) → List String
  | [] => []
  | (_, .undefined) :: rest => jsonFieldStrings rest
  | (k, v) :: rest => (jsonQuote k ++ ":" ++ jsonStringify v) :: jsonFieldStrings rest
end

/-! ## Request handler (part_000 lines 64-428)

`handleRequest` embeds the request path after body parsing and the
API-key check: cache lookup (lines 84-95), required-field validation
(lines 97-109), then the retry loop with the fallback response.  One
`attempt` of the loop body — Gemini fetch, extraction of the `{...}`
span, `JSON.parse`, and schema repair (lines 222-345) — is abstracted as
a function from the attempt number to either a normalized result or the
error thrown by that attempt; every `throw` inside the loop body is
caught by the `catch (attempt_error)` arm, which is what the
`Except`-valued codomain models.  The prompt string built between
validation and the loop is pure string formatting and cannot throw, so it
is not modelled. -/

/-- The failure classes an attempt can throw (lines 261, 271, 277, 285,
328). -/
inductive AttemptError where
  | transport
  | emptyResponse
  | extraction
  | parse
  | schema
deriving DecidableEq, Repr

/-- The three caller-visible response shapes of the handler. -/
inductive ServeResponse where
  | ok (body : RecommendationResult)
  | badRequest
  | serverError
deriving DecidableEq, Repr

/-- `const maxAttempts = 3`. -/
def maxAttempts : ℕ := 3

/-- The `while (attemptCount < maxAttempts)` loop (lines 218-345) plus
the fallback response after it (lines 347-414).  The first argument of
the recursion is the remaining fuel `maxAttempts - attemptCount`, the
second the current `attemptCount`.  On success the result is cached
(lines 317-320; the write timestamp is the `now` passed in — the loop's
backoff delays are not modelled, and no theorem depends on the stored
timestamp's exact value) and returned; when the budget is exhausted the
hardcoded fallback body is returned as a plain 200 response with the
cache untouched.  The returned `ℕ` is the number of attempts invoked. -/
def retryLoop (attempt : ℕ → Except AttemptError RecommendationResult)
    (cache : CacheMap) (key : String) (now : ℤ) :
    ℕ → ℕ → ServeResponse × CacheMap × ℕ
  | 0, count => (.ok fallbackResult, cache, count)
  | fuel + 1, count =>
    match attempt count with
    | .ok r => (.ok r, cachePut cache key r now, count + 1)
    | .error _ => retryLoop attempt cache key now fuel (count + 1)

/-- Required-field validation (line 98):
`!farmData.location || !farmData.soilType || !farmData.waterAvailability`
— a *truthiness* test on the three properties, not a presence test. -/
def validRequired (body : JsValue) : Bool :=
  jsTruthy (jsGetD body "location") &&
  jsTruthy (jsGetD body "soilType") &&
  jsTruthy (jsGetD body "waterAvailability")

/-- The handler after body parsing: cache check, validation, retry loop.
A `null`/`undefined` body makes `farmData.location` itself throw; the
outer `catch` turns that into a 500 response. -/
def handleRequest (attempt : ℕ → Except AttemptError RecommendationResult)
    (cache : CacheMap) (body : JsValue) (now : ℤ) :
    ServeResponse × CacheMap × ℕ :=
  let key := jsonStringify body
  let chk := cacheCheck cache key now
  match chk.1 with
  | some r => (.ok r, chk.2, 0)
  | none =>
    match body with
    | .null => (.serverError, cache, 0)
    | .undefined => (.serverError, cache, 0)
    | _ =>
      if validRequired body then retryLoop attempt cache key now maxAttempts 0
      else (.badRequest, cache, 0)

/-! ## Client-side water-availability conversion
(useGeminiAI.ts lines 54-121)

```js
if (typeof farmData.waterAvailability === 'number' || /^\d+$/.test(farmData.waterAvailability)) {
  const inches = Number(farmData.waterAvailability);
  farmData.waterAvailabilityInches = inches;
  if (inches < 10) farmData.waterAvailability = "limited";
  else if (inches < 15) farmData.waterAvailability = "rainfed";
  else if (inches < 25) farmData.waterAvailability = "basic-irrigation";
  else farmData.waterAvailability = "full-irrigation";
}
```

The assignments mutate the caller's `farmData` record in place, and no
later statement of `getCropRecommendations` writes to `farmData`, so the
function's cumulative effect on its argument is exactly this
conversion. -/

/-- `waterAvailability` as the client may hold it: a number or a string
(the `typeof` test distinguishes exactly these two cases). -/
inductive WaterValue where
  | number (q : ℚ)
  | string (s : String)
deriving DecidableEq, Repr

/-- The client-side `FarmData` record (useGeminiAI.ts lines 7-22), with
the location object flattened into its three fields. -/
structure FarmDataClient where
  locationName : String
  lat : ℚ
  lng : ℚ
  landSize : ℚ
  soilType : String
  waterAvailability : WaterValue
  waterAvailabilityInches : Option ℚ
  budget : ℚ
  farmingPriority : String
  experience : Option ℚ
  previousCrop : Option String
  notes : Option String
deriving DecidableEq, Repr

/-- The regex test `/^\d+$/.test(s)`: non-empty and every character a
decimal digit. -/
def isAllDigits (s : String) : Bool :=
  !s.isEmpty && s.toList.all Char.isDigit

/-- Value of a decimal digit character (meaningful on `0`-`9`). -/
def digitVal (c : Char) : ℕ :=
  if c = '0' then 0 else if c = '1' then 1 else if c = '2' then 2
  else if c = '3' then 3 else if c = '4' then 4 else if c = '5' then 5
  else if c = '6' then 6 else if c = '7' then 7 else if c = '8' then 8
  else 9

/-- `Number(s)` for a string passing `/^\d+$/`: its decimal value. -/
def digitStringToNat (s : String) : ℕ :=
  s.toList.foldl (fun acc c => 10 * acc + digitVal c) 0

/-- The threshold mapping of lines 68-76. -/
def waterCategoryOfInches (q : ℚ) : String :=
  if q < 10 then "limited"
  else if q < 15 then "rainfed"
  else if q < 25 then "basic-irrigation"
  else "full-irrigation"

/-- Lines 62-77: numbers and all-digit strings are converted (and the
numeric value stored in `waterAvailabilityInches`); every other value is
left untouched. -/
def convertWaterAvailability (fd : FarmDataClient) : FarmDataClient :=
  match fd.waterAvailability with
  | .number q =>
      { fd with waterAvailabilityInches := some q
              , waterAvailability := .string (waterCategoryOfInches q) }
  | .string s =>
      if isAllDigits s then
        { fd with waterAvailabilityInches := some (digitStringToNat s : ℚ)
                , waterAvailability := .string (waterCategoryOfInches (digitStringToNat s : ℚ)) }
      else fd

/-- The net effect of `getCropRecommendations` on the caller's `farmData`
record: the conversion above is the only code in the function body that
writes to the argument, and nothing restores the original values. -/
def getCropRecommendationsEffect : FarmDataClient → FarmDataClient :=
  convertWaterAvailability

/-! ## Schema normalizer, untyped level (part_000 lines 283-314)

The repair pass as it actually runs over untrusted parsed JSON, with the
places where the JavaScript would throw made explicit (`Except`).  Deno
serves ES modules, which are strict-mode code: property *reads* on
`null`/`undefined` throw `TypeError`, and property *writes* on primitives
throw `TypeError` as well.  A JS expando assignment on an array is legal
but invisible to `JSON.stringify`, so array-valued categories/crops pass
through unchanged here. -/

/-- `Except` success test. -/
def exceptIsOk {ε α : Type} : Except ε α → Bool
  | .ok _ => true
  | .error _ => false

/-- First repair pass over a parsed `crops` array (the `map` with the
`hasTopPick` flag, lines 293-303).  Reading `crop.isTopPick` throws on a
`null`/`undefined` element.  A non-object crop cannot have a truthy
`isTopPick` (only objects carry fields in this model), so the demoting
write `crop.isTopPick = false` only ever targets objects. -/
def fixTopPicksJs : List JsValue → Bool → Except String (List JsValue × Bool)
  | [], has => .ok ([], has)
  | crop :: rest, has =>
    match crop with
    | .null => .error "TypeError: Cannot read properties of null (reading isTopPick)"
    | .undefined => .error "TypeError: Cannot read properties of undefined (reading isTopPick)"
    | _ =>
      if jsTruthy (jsGetD crop "isTopPick") then
        if has then
          match crop with
          | .object fs => do
            let r ← fixTopPicksJs rest true
            return (.object (setFieldObj fs "isTopPick" (.boolean false)) :: r.1, r.2)
          | _ => .error "unreachable: only objects carry fields in this model"
        else do
          let r ← fixTopPicksJs rest true
          return (crop :: r.1, r.2)
      else do
        let r ← fixTopPicksJs rest has
        return (crop :: r.1, r.2)

/-- JS `>` as used by the reduce on `score` properties: exact for two
numbers and for two strings (code-unit order approximated by Lean's
string order); any comparison involving `undefined` or a non-primitive
is `false` (ToNumber of `undefined` and of a plain object is NaN; the
remaining ToPrimitive corners — null, booleans, arrays — are
approximated by `false`, and no theorem relies on them). -/
def jsGt : JsValue → JsValue → Bool
  | .number a, .number b => decide (b < a)
  | .string a, .string b => decide (b < a)
  | _, _ => false

/-- Index of the element returned by the untyped reduce of lines 307-309
(same shape as `topIdxAux`; elements here are the output of the first
pass, hence never `null`/`undefined`). -/
def topIdxAuxJs : JsValue → ℕ → List JsValue → ℕ → ℕ
  | _, prevIdx, [], _ => prevIdx
  | prev, prevIdx, cur :: rest, curIdx =>
    if jsGt (jsGetD prev "score") (jsGetD cur "score") then
      topIdxAuxJs prev prevIdx rest (curIdx + 1)
    else
      topIdxAuxJs cur curIdx rest (curIdx + 1)

/-- Index of the untyped reduce winner. -/
def highestScoringIdxJs : List JsValue → ℕ
  | [] => 0
  | c :: rest => topIdxAuxJs c 0 rest 1

/-- `highestScoringCrop.isTopPick = true` (line 310) as a positional
update: legal on an object; on an array the expando write is invisible to
the serialized response, so the array passes through; on a primitive the
strict-mode write throws (`null`/`undefined` cannot reach here after the
first pass). -/
def setTopPickAtJs : List JsValue → ℕ → Except String (List JsValue)
  | [], _ => .ok []
  | c :: rest, 0 =>
    match c with
    | .object fs => .ok (.object (setFieldObj fs "isTopPick" (.boolean true)) :: rest)
    | .array es => .ok (.array es :: rest)
    | _ => .error "TypeError: Cannot create property isTopPick on a primitive value"
  | c :: rest, n + 1 => do
    let r ← setTopPickAtJs rest n
    return (c :: r)

/-- The per-category body of the untyped repair map (lines 289-313).
Reading `category.crops` throws on `null`/`undefined`; the defaulting
write `category.crops = []` throws on a primitive (strict mode); an array
category takes the invisible-expando path and passes through; a truthy
non-array `crops` makes `category.crops.map` throw. -/
def normalizeCategoryJs (category : JsValue) : Except String JsValue :=
  match category with
  | .null => .error "TypeError: Cannot read properties of null (reading crops)"
  | .undefined => .error "TypeError: Cannot read properties of undefined (reading crops)"
  | .array es => .ok (.array es)
  | .boolean _ => .error "TypeError: Cannot create property crops on a boolean"
  | .number _ => .error "TypeError: Cannot create property crops on a number"
  | .string _ => .error "TypeError: Cannot create property crops on a string"
  | .object fs =>
    let fs1 := if jsTruthy (lookupFieldD fs "crops") then fs
               else setFieldObj fs "crops" (.array [])
    match lookupFieldD fs1 "crops" with
    | .array cs => do
      let p ← fixTopPicksJs cs false
      if !p.2 && decide (0 < p.1.length) then
        let cs2 ← setTopPickAtJs p.1 (highestScoringIdxJs p.1)
        return .object (setFieldObj fs1 "crops" (.array cs2))
      else
        return .object (setFieldObj fs1 "crops" (.array p.1))
    | _ => .error "TypeError: category.crops.map is not a function"

/-- `parsedResponse.categories.map(category => ...)`: left to right, the
first throw propagates. -/
def mapCategoriesJs : List JsValue → Except String (List JsValue)
  | [] => .ok []
  | c :: rest => do
    let v ← normalizeCategoryJs c
    let vs ← mapCategoriesJs rest
    return (v :: vs)

/-- The untyped normalizer over the parsed response (lines 283-314):
step 1 checks that `parsedResponse.categories` is a truthy array, then the
category repair is mapped over it and the result stored back.  A
`null`/`undefined` parsed value makes the property read itself throw; any
other non-object reads `categories` as `undefined` and fails step 1. -/
def normalizeParsedJs (parsed : JsValue) : Except String JsValue :=
  match parsed with
  | .null => .error "TypeError: Cannot read properties of null (reading categories)"
  | .undefined => .error "TypeError: Cannot read properties of undefined (reading categories)"
  | .object fs =>
    match lookupFieldD fs "categories" with
    | .array cats => do
      let cats2 ← mapCategoriesJs cats
      return .object (setFieldObj fs "categories" (.array cats2))
    | _ => .error "Invalid response format - missing categories array"
  | _ => .error "Invalid response format - missing categories array"

/-- `true` exactly on objects. -/
def isJsObject : JsValue → Bool
  | .object _ => true
  | _ => false

/-- Category shapes on which the repair provably cannot throw: arrays,
and objects whose `crops` field is either falsy (it is then defaulted to
`[]`) or an array all of whose elements are objects. -/
def jsSafeCategory : JsValue → Bool
  | .array _ => true
  | .object fs =>
    match lookupFieldD fs "crops" with
    | .array cs => cs.all isJsObject
    | v => !(jsTruthy v)
  | _ => false

/-! ## Shared concrete example values -/

set_option maxRecDepth 8000

/-- Crop with the given name, score and flag; the fields the normalizer
never reads are fixed. -/
def mkCrop (nm : String) (sc : ℚ) (tp : Bool) : Crop :=
  { name := nm, description := "", estimatedProfit := 0, marketPrice := 0,
    score := sc, growthPeriod := "", waterRequirements := "",
    soilCompatibility := [], isTopPick := tp, maturityPeriod := "",
    bestPlantingTime := none }

/-- A minimal valid request body (used to instantiate handler theorems). -/
def exampleRequestBody : JsValue :=
  .object [("location", .object [("name", .string "Nairobi"),
                                 ("lat", .number (-1)), ("lng", .number 36)]),
           ("soilType", .string "Loamy"),
           ("waterAvailability", .string "rainfed")]

/-- A client-side farm record with the given water availability. -/
def baseFarmData (w : WaterValue) : FarmDataClient :=
  { locationName := "Nairobi", lat := -1, lng := 36, landSize := 10,
    soilType := "Loamy", waterAvailability := w,
    waterAvailabilityInches := none, budget := 1000,
    farmingPriority := "balanced", experience := none,
    previousCrop := none, notes := none }

/-! ## Lemmas on the typed normalizer -/

theorem clearTopPick_isTopPick (c : Crop) : (clearTopPick c).isTopPick = false := by
  unfold clearTopPick
  by_cases h : c.isTopPick <;> simp [h]

theorem countP_map_clearTopPick (cs : List Crop) :
    (cs.map clearTopPick).countP (fun c => c.isTopPick) = 0 := by
  induction cs with
  | nil => rfl
  | cons c rest ih => simp [List.countP_cons, ih, clearTopPick_isTopPick]

theorem enforceSingleTopPick_true (cs : List Crop) :
    enforceSingleTopPick cs true = (cs.map clearTopPick, true) := by
  induction cs with
  | nil => rfl
  | cons c rest ih =>
    by_cases h : c.isTopPick <;> simp [enforceSingleTopPick, h, ih, clearTopPick]

theorem enforceSingleTopPick_length (cs : List Crop) : ∀ b : Bool,
    (enforceSingleTopPick cs b).1.length = cs.length := by
  induction cs with
  | nil => intro b; rfl
  | cons c rest ih =>
    intro b
    by_cases h : c.isTopPick
    · cases b <;> simp [enforceSingleTopPick, h, ih]
    · simp [enforceSingleTopPick, h, ih]

theorem enforceSingleTopPick_count_of_true (cs : List Crop)
    (h : (enforceSingleTopPick cs false).2 = true) :
    (enforceSingleTopPick cs false).1.countP (fun c => c.isTopPick) = 1 := by
  induction cs with
  | nil => simp [enforceSingleTopPick] at h
  | cons c rest ih =>
    by_cases hc : c.isTopPick
    · simp [enforceSingleTopPick, hc, enforceSingleTopPick_true, List.countP_cons]
      intro a _
      exact clearTopPick_isTopPick a
    · simp only [enforceSingleTopPick, hc, if_false, Bool.false_eq_true] at h ⊢
      simp [List.countP_cons, hc, ih h]

theorem enforceSingleTopPick_id_of_false (cs : List Crop)
    (h : (enforceSingleTopPick cs false).2 = false) :
    (enforceSingleTopPick cs false).1 = cs ∧ ∀ c ∈ cs, c.isTopPick = false := by
  induction cs with
  | nil => exact ⟨rfl, by simp⟩
  | cons c rest ih =>
    by_cases hc : c.isTopPick
    · simp [enforceSingleTopPick, hc, enforceSingleTopPick_true] at h
    · simp only [enforceSingleTopPick, hc, if_false, Bool.false_eq_true] at h ⊢
      obtain ⟨h1, h2⟩ := ih h
      refine ⟨by simp [h1], ?_⟩
      intro d hd
      rcases List.mem_cons.mp hd with hd | hd
      · simpa [hd] using hc
      · exact h2 d hd

theorem enforceSingleTopPick_split (pre : List Crop) (c : Crop) (suf : List Crop)
    (hpre : ∀ p ∈ pre, p.isTopPick = false) (hc : c.isTopPick = true) :
    enforceSingleTopPick (pre ++ c :: suf) false
      = (pre ++ c :: suf.map clearTopPick, true) := by
  induction pre with
  | nil => simp [enforceSingleTopPick, hc, enforceSingleTopPick_true]
  | cons p rest ih =>
    have hp : p.isTopPick = false := hpre p (by simp)
    have ih2 := ih (fun q hq => hpre q (by simp [hq]))
    simp [enforceSingleTopPick, hp, ih2]

theorem setTopPickAt_length (cs : List Crop) : ∀ i : ℕ,
    (setTopPickAt cs i).length = cs.length := by
  induction cs with
  | nil => intro i; rfl
  | cons c rest ih =>
    intro i
    cases i with
    | zero => simp [setTopPickAt]
    | succ n => simp [setTopPickAt, ih]

theorem setTopPickAt_countP (cs : List Crop) : ∀ i : ℕ, i < cs.length →
    (∀ c ∈ cs, c.isTopPick = false) →
    (setTopPickAt cs i).countP (fun c => c.isTopPick) = 1 := by
  induction cs with
  | nil => intro i hi; simp at hi
  | cons c rest ih =>
    intro i hi hflag
    cases i with
    | zero =>
      have : rest.countP (fun c => c.isTopPick) = 0 := by
        rw [List.countP_eq_zero]
        intro d hd
        simp [hflag d (by simp [hd])]
      simp [setTopPickAt, List.countP_cons, this]
    | succ n =>
      have hc : c.isTopPick = false := hflag c (by simp)
      have := ih n (by simpa using hi) (fun d hd => hflag d (by simp [hd]))
      simp [setTopPickAt, List.countP_cons, hc, this]

theorem topIdxAux_lt (rest : List Crop) : ∀ (prev : Crop) (prevIdx curIdx : ℕ),
    prevIdx < curIdx →
    topIdxAux prev prevIdx rest curIdx < curIdx + rest.length := by
  induction rest with
  | nil =>
    intro prev prevIdx curIdx h
    simpa [topIdxAux] using h
  | cons c rs ih =>
    intro prev prevIdx curIdx h
    by_cases hgt : prev.score > c.score
    · simp only [topIdxAux, hgt, if_true]
      have := ih prev prevIdx (curIdx + 1) (by omega)
      simpa [Nat.add_assoc, Nat.add_comm 1 rs.length] using this
    · simp only [topIdxAux, hgt, if_false]
      have := ih c curIdx (curIdx + 1) (by omega)
      simpa [Nat.add_assoc, Nat.add_comm 1 rs.length] using this

theorem highestScoringIdx_lt (cs : List Crop) (h : cs ≠ []) :
    highestScoringIdx cs < cs.length := by
  match cs, h with
  | c :: rest, _ =>
    have := topIdxAux_lt rest c 0 1 (by omega)
    simpa [highestScoringIdx, Nat.add_comm 1 rest.length] using this

theorem enforceSingleTopPick_no_flag (cs : List Crop)
    (h : ∀ c ∈ cs, c.isTopPick = false) :
    enforceSingleTopPick cs false = (cs, false) := by
  induction cs with
  | nil => rfl
  | cons c rest ih =>
    have hc := h c (by simp)
    simp [enforceSingleTopPick, hc, ih (fun d hd => h d (by simp [hd]))]

/-- Behaviour of the JS `reduce` accumulator: either the seed survives
(and then every listed element scores strictly below it), or the final
winner is a listed element that every element scores at most as high as
and every *later* element scores strictly below — ties move the winner
rightward because the callback keeps `prev` only on strict `>`. -/
theorem topIdxAux_spec (rest : List Crop) : ∀ (prev : Crop) (prevIdx curIdx : ℕ),
    (topIdxAux prev prevIdx rest curIdx = prevIdx ∧
      ∀ j cj, rest.get? j = some cj → cj.score < prev.score)
    ∨ (∃ k ck, rest.get? k = some ck ∧
        topIdxAux prev prevIdx rest curIdx = curIdx + k ∧
        prev.score ≤ ck.score ∧
        (∀ j cj, rest.get? j = some cj → cj.score ≤ ck.score) ∧
        (∀ j cj, rest.get? j = some cj → k < j → cj.score < ck.score)) := by
  induction rest with
  | nil =>
    intro prev prevIdx curIdx
    left
    refine ⟨rfl, ?_⟩
    intro j cj hj
    simp at hj
  | cons c rs ih =>
    intro prev prevIdx curIdx
    by_cases hgt : prev.score > c.score
    · rcases ih prev prevIdx (curIdx + 1) with ⟨heq, hall⟩ |
        ⟨k, ck, hget, heq, hprev, hall, hlater⟩
      · left
        refine ⟨by simp [topIdxAux, hgt, heq], ?_⟩
        intro j cj hj
        cases j with
        | zero =>
          simp only [List.get?_cons_zero, Option.some.injEq] at hj
          rw [← hj]
          exact hgt
        | succ n => exact hall n cj (by simpa using hj)
      · right
        refine ⟨k + 1, ck, by simpa using hget, ?_, hprev, ?_, ?_⟩
        · simp only [topIdxAux, hgt, if_true]
          rw [heq]; omega
        · intro j cj hj
          cases j with
          | zero =>
            simp only [List.get?_cons_zero, Option.some.injEq] at hj
            rw [← hj]
            exact le_of_lt (lt_of_lt_of_le hgt hprev)
          | succ n => exact hall n cj (by simpa using hj)
        · intro j cj hj hlt
          cases j with
          | zero => omega
          | succ n => exact hlater n cj (by simpa using hj) (by omega)
    · have hle : prev.score ≤ c.score := not_lt.mp hgt
      rcases ih c curIdx (curIdx + 1) with ⟨heq, hall⟩ |
        ⟨k, ck, hget, heq, hprev, hall, hlater⟩
      · right
        refine ⟨0, c, by simp, ?_, hle, ?_, ?_⟩
        · simp only [topIdxAux, hgt, if_false]
          rw [heq]; omega
        · intro j cj hj
          cases j with
          | zero =>
            simp only [List.get?_cons_zero, Option.some.injEq] at hj
            rw [← hj]
          | succ n => exact le_of_lt (hall n cj (by simpa using hj))
        · intro j cj hj hlt
          cases j with
          | zero => omega
          | succ n => exact hall n cj (by simpa using hj)
      · right
        refine ⟨k + 1, ck, by simpa using hget, ?_, le_trans hle hprev, ?_, ?_⟩
        · simp only [topIdxAux, hgt, if_false]
          rw [heq]; omega
        · intro j cj hj
          cases j with
          | zero =>
            simp only [List.get?_cons_zero, Option.some.injEq] at hj
            rw [← hj]
            exact hprev
          | succ n => exact hall n cj (by simpa using hj)
        · intro j cj hj hlt
          cases j with
          | zero => omega
          | succ n => exact hlater n cj (by simpa using hj) (by omega)

/-- The reduce of lines 307-309 picks a maximal-score crop, and every
crop *after* the picked one scores strictly lower (so among equal maxima
the picked crop is the last, not the first). -/
theorem highestScoringIdx_spec (c : Crop) (rs : List Crop) :
    ∃ ct, (c :: rs).get? (highestScoringIdx (c :: rs)) = some ct ∧
      (∀ j cj, (c :: rs).get? j = some cj → cj.score ≤ ct.score) ∧
      (∀ j cj, (c :: rs).get? j = some cj →
        highestScoringIdx (c :: rs) < j → cj.score < ct.score) := by
  rcases topIdxAux_spec rs c 0 1 with ⟨heq, hall⟩ |
    ⟨k, ck, hget, heq, hprev, hall, hlater⟩
  · refine ⟨c, ?_, ?_, ?_⟩
    · simp [highestScoringIdx, heq]
    · intro j cj hj
      cases j with
      | zero =>
        simp only [List.get?_cons_zero, Option.some.injEq] at hj
        rw [← hj]
      | succ n => exact le_of_lt (hall n cj (by simpa using hj))
    · intro j cj hj hlt
      cases j with
      | zero => simp [highestScoringIdx, heq] at hlt
      | succ n => exact hall n cj (by simpa using hj)
  · have hidx : highestScoringIdx (c :: rs) = k + 1 := by
      simp only [highestScoringIdx]
      rw [heq]; omega
    refine ⟨ck, ?_, ?_, ?_⟩
    · rw [hidx]; simpa using hget
    · intro j cj hj
      cases j with
      | zero =>
        simp only [List.get?_cons_zero, Option.some.injEq] at hj
        rw [← hj]
        exact hprev
      | succ n => exact hall n cj (by simpa using hj)
    · intro j cj hj hlt
      rw [hidx] at hlt
      cases j with
      | zero => omega
      | succ n => exact hlater n cj (by simpa using hj) (by omega)

theorem normalizeCategory_of_true (cat : CropCategory)
    (h : (enforceSingleTopPick cat.crops false).2 = true) :
    normalizeCategory cat
      = { cat with crops := (enforceSingleTopPick cat.crops false).1 } := by
  simp [normalizeCategory, h]

theorem normalizeCategory_of_false (cat : CropCategory)
    (h : (enforceSingleTopPick cat.crops false).2 = false)
    (hne : cat.crops ≠ []) :
    normalizeCategory cat
      = { cat with crops := setTopPickAt (enforceSingleTopPick cat.crops false).1 (highestScoringIdx (enforceSingleTopPick cat.crops false).1) } := by
  have hlen : 0 < (enforceSingleTopPick cat.crops false).1.length := by
    rw [enforceSingleTopPick_length]
    exact List.length_pos.mpr hne
  simp [normalizeCategory, h, hlen]

theorem normalizeCategory_empty (cat : CropCategory) (h : cat.crops = []) :
    normalizeCategory cat = cat := by
  obtain ⟨t, cs⟩ := cat
  simp only at h
  subst h
  rfl

theorem normalizeCategory_type (cat : CropCategory) :
    (normalizeCategory cat).type = cat.type := by
  by_cases hcond : (!(enforceSingleTopPick cat.crops false).2
      && decide (0 < (enforceSingleTopPick cat.crops false).1.length)) = true
  · simp [normalizeCategory, hcond]
  · simp [normalizeCategory, hcond]

/-! ## Claim C1 -/

/-- C1: for every parsed object accepted by the schema normalizer
(typed per the data model: `categories` is a list of categories), every
category of the normalized output with a non-empty crop list contains
exactly one crop with `isTopPick = true`; and when an input category's
crop list splits as `pre ++ c :: suf` with no crop of `pre` flagged and
`c` flagged, the first flagged crop `c` keeps the flag and every later
flagged crop is forced to `false` (unflagged crops are untouched). -/
theorem claim1_single_top_pick (r : RecommendationResult) :
    (∀ cat ∈ (normalizeResult r).categories, cat.crops ≠ [] →
        cat.crops.countP (fun c => c.isTopPick) = 1)
    ∧ (∀ cat ∈ r.categories, ∀ pre c suf,
        cat.crops = pre ++ c :: suf →
        (∀ p ∈ pre, p.isTopPick = false) →
        c.isTopPick = true →
        (normalizeCategory cat).crops = pre ++ c :: suf.map clearTopPick) := by
  constructor
  · intro cat hmem hne
    simp only [normalizeResult, List.mem_map] at hmem
    obtain ⟨cat0, _, rfl⟩ := hmem
    cases h2 : (enforceSingleTopPick cat0.crops false).2 with
    | false =>
      by_cases hnil : cat0.crops = []
      · rw [normalizeCategory_empty cat0 hnil] at hne
        exact absurd hnil hne
      · rw [normalizeCategory_of_false cat0 h2 hnil]
        obtain ⟨hid, hflags⟩ := enforceSingleTopPick_id_of_false _ h2
        simp only [hid]
        exact setTopPickAt_countP _ _ (highestScoringIdx_lt _ hnil) hflags
    | true =>
      rw [normalizeCategory_of_true cat0 h2]
      exact enforceSingleTopPick_count_of_true _ h2
  · intro cat _ pre c suf hsplit hpre hc
    have hsp := enforceSingleTopPick_split pre c suf hpre hc
    have h2 : (enforceSingleTopPick cat.crops false).2 = true := by
      rw [hsplit, hsp]
    rw [normalizeCategory_of_true cat h2]
    simp only [hsplit, hsp]

/-- The spec §8 scenario: Tomato (score 80, flagged) before Kale
(score 90, flagged). -/
def vegCategory : CropCategory :=
  { type := "Vegetables", crops := [mkCrop "Tomato" 80 true, mkCrop "Kale" 90 true] }

/-- A one-category result holding `vegCategory`. -/
def vegResult : RecommendationResult :=
  { categories := [vegCategory], reasoning := "" }

/-- Witness for C1: on the §8 scenario the first flagged crop (Tomato)
keeps the flag, the later flagged crop (Kale) is demoted, and the
repaired category has exactly one top pick. -/
theorem claim1_single_top_pick_witness :
    (normalizeCategory vegCategory).crops
      = [] ++ mkCrop "Tomato" 80 true :: [mkCrop "Kale" 90 true].map clearTopPick
    ∧ (normalizeCategory vegCategory).crops.countP (fun c => c.isTopPick) = 1 := by
  constructor
  · exact (claim1_single_top_pick vegResult).2 vegCategory (by simp [vegResult])
      [] (mkCrop "Tomato" 80 true) [mkCrop "Kale" 90 true] rfl (by simp) rfl
  · exact (claim1_single_top_pick vegResult).1 (normalizeCategory vegCategory)
      (by simp [normalizeResult, vegResult]) (by decide)

/-! ## Claim C3 -/

/-- C3 counterexample: the normalizer of part_000 appends nothing — on a
parsed object with an empty `categories` array the output's category
type labels are `[]`, so "Grains & Cereals" (a member of the fixed
standard list) is missing, contradicting "the set of category type
labels present equals exactly the fixed standard category list ... none
missing; any category absent from the parsed input is appended with an
empty crop list". -/
theorem claim3_counterexample :
    (normalizeResult { categories := [], reasoning := "no data" }).categories.map
        CropCategory.type = []
    ∧ "Grains & Cereals" ∈ standardCategories := by
  constructor
  · rfl
  · decide

/-- C3 (amended): the schema normalizer preserves the input's category
type labels exactly, in order — it appends no missing standard
categories and removes no duplicates, so the output's label list equals
the standard list only when the input's already does.  (The
append-missing-categories step exists only in the other edge-function
variant, src/unnamed/part_001 lines 298-318, not in the cited code.) -/
theorem claim3_types_preserved (r : RecommendationResult) :
    (normalizeResult r).categories.map CropCategory.type
      = r.categories.map CropCategory.type := by
  have hfun : (CropCategory.type ∘ normalizeCategory) = CropCategory.type :=
    funext normalizeCategory_type
  simp [normalizeResult, List.map_map, hfun]

/-! ## Claim C5 -/

/-- C5 (amended): when no crop of a non-empty category is flagged (so the
first-true-wins pass finds nothing), the normalizer flags the crop at the
index the reduce returns; that crop's score is maximal in the category,
and every crop *after* it scores strictly lower — among equally maximal
crops the *last* one in list order is selected, not the first. -/
theorem claim5_max_score_fill (cat : CropCategory)
    (hne : cat.crops ≠ [])
    (hflags : ∀ c ∈ cat.crops, c.isTopPick = false) :
    (normalizeCategory cat).crops
      = setTopPickAt cat.crops (highestScoringIdx cat.crops)
    ∧ ∃ ct, cat.crops.get? (highestScoringIdx cat.crops) = some ct
        ∧ (∀ j cj, cat.crops.get? j = some cj → cj.score ≤ ct.score)
        ∧ (∀ j cj, cat.crops.get? j = some cj →
            highestScoringIdx cat.crops < j → cj.score < ct.score) := by
  have h0 := enforceSingleTopPick_no_flag cat.crops hflags
  have h2 : (enforceSingleTopPick cat.crops false).2 = false := by rw [h0]
  constructor
  · rw [normalizeCategory_of_false cat h2 hne]
    simp only [h0]
  · match cat.crops, hne with
    | c :: rs, _ => exact highestScoringIdx_spec c rs

/-- Two crops with equal maximal scores and no upstream flag. -/
def tieCategory : CropCategory :=
  { type := "Vegetables", crops := [mkCrop "A" 50 false, mkCrop "B" 50 false] }

/-- C5 counterexample: on two equally-scored unflagged crops the
normalizer flags crop B — the *second* of the two crops with maximal
score — refuting "among crops with equally maximal scores it selects the
first such crop in list order". -/
theorem claim5_counterexample :
    (mkCrop "A" 50 false).score = (mkCrop "B" 50 false).score
    ∧ (normalizeCategory tieCategory).crops
        = [mkCrop "A" 50 false, mkCrop "B" 50 true] := by
  constructor
  · rfl
  · decide

/-- Witness for C5 at the tied two-crop category. -/
theorem claim5_max_score_fill_witness :
    (normalizeCategory tieCategory).crops
      = setTopPickAt tieCategory.crops (highestScoringIdx tieCategory.crops)
    ∧ ∃ ct, tieCategory.crops.get? (highestScoringIdx tieCategory.crops) = some ct
        ∧ (∀ j cj, tieCategory.crops.get? j = some cj → cj.score ≤ ct.score)
        ∧ (∀ j cj, tieCategory.crops.get? j = some cj →
            highestScoringIdx tieCategory.crops < j → cj.score < ct.score) :=
  claim5_max_score_fill tieCategory (by decide) (by decide)

/-! ## Claim C2 -/

theorem retryLoop_all_fail (attempt : ℕ → Except AttemptError RecommendationResult)
    (cache : CacheMap) (key : String) (now : ℤ)
    (hfail : ∀ n, ∃ e, attempt n = Except.error e) :
    ∀ fuel count, retryLoop attempt cache key now fuel count
      = (.ok fallbackResult, cache, count + fuel) := by
  intro fuel
  induction fuel with
  | zero => intro count; simp [retryLoop]
  | succ n ih =>
    intro count
    obtain ⟨e, he⟩ := hfail count
    have harith : count + 1 + n = count + (n + 1) := by omega
    simp [retryLoop, he, ih, harith]

/-- C2: when every attempt of the completion/extraction/normalization
pipeline fails, the handler performs exactly 3 attempts and then returns
the fixed, hardcoded fallback `RecommendationResult` as an `ok`
response — the per-attempt errors are all caught inside the loop (the
handler is a total function into `ServeResponse`, so no exception
reaches the caller) and the result cache is returned unchanged. -/
theorem claim2_fallback_after_three
    (attempt : ℕ → Except AttemptError RecommendationResult)
    (cache : CacheMap) (body : JsValue) (now : ℤ)
    (hmiss : cacheGet cache (jsonStringify body) now = none)
    (hvalid : validRequired body = true)
    (hfail : ∀ n, ∃ e, attempt n = Except.error e) :
    handleRequest attempt cache body now = (.ok fallbackResult, cache, 3) := by
  have hloop := retryLoop_all_fail attempt cache (jsonStringify body) now hfail maxAttempts 0
  cases body
  case object fs =>
    simp only [maxAttempts] at hloop
    simp [handleRequest, cacheCheck, hmiss, hvalid, hloop, maxAttempts]
  all_goals simp [validRequired, jsGetD, jsTruthy] at hvalid

/-- Witness for C2: an always-failing completion stub on a fresh cache
and a valid body yields the fallback after exactly 3 attempts. -/
theorem claim2_fallback_after_three_witness :
    handleRequest (fun _ => .error .transport) (fun _ => none) exampleRequestBody 0
      = (.ok fallbackResult, (fun _ => none), 3) :=
  claim2_fallback_after_three (fun _ => .error .transport) (fun _ => none)
    exampleRequestBody 0 rfl (by decide) (fun _ => ⟨.transport, rfl⟩)

/-! ## Claim C7 -/

/-- C7: a put followed by an immediate get returns the stored result;
a get after the 24-hour TTL has elapsed returns absent; and the read
path returns the mapping unchanged — in particular the expired entry is
still present under its key after the read. -/
theorem claim7_cache_roundtrip (c : CacheMap) (k : String)
    (r : RecommendationResult) (t t2 : ℤ) (h : t + CACHE_TTL ≤ t2) :
    (cacheCheck (cachePut c k r t) k t).1 = some r
    ∧ (cacheCheck (cachePut c k r t) k t2).1 = none
    ∧ (cacheCheck (cachePut c k r t) k t2).2 = cachePut c k r t
    ∧ (cacheCheck (cachePut c k r t) k t2).2 k = some { data := r, timestamp := t } := by
  refine ⟨?_, ?_, rfl, ?_⟩
  · norm_num [cacheCheck, cacheGet, cachePut, CACHE_TTL]
  · have hge : ¬ (t2 - t < CACHE_TTL) := by
      simp only [CACHE_TTL] at h ⊢
      omega
    simp [cacheCheck, cacheGet, cachePut, hge]
  · simp [cacheCheck, cachePut]

/-- Witness for C7 on an empty cache at fingerprint "fp", put at time 0
and re-read at the moment the TTL elapses. -/
theorem claim7_cache_roundtrip_witness :
    (cacheCheck (cachePut (fun _ => none) "fp" fallbackResult 0) "fp" 0).1 = some fallbackResult
    ∧ (cacheCheck (cachePut (fun _ => none) "fp" fallbackResult 0) "fp" CACHE_TTL).1 = none
    ∧ (cacheCheck (cachePut (fun _ => none) "fp" fallbackResult 0) "fp" CACHE_TTL).2
        = cachePut (fun _ => none) "fp" fallbackResult 0
    ∧ (cacheCheck (cachePut (fun _ => none) "fp" fallbackResult 0) "fp" CACHE_TTL).2 "fp"
        = some { data := fallbackResult, timestamp := 0 } :=
  claim7_cache_roundtrip (fun _ => none) "fp" fallbackResult 0 CACHE_TTL (by simp)

/-! ## Claim C9 -/

/-- Own-property presence test (for stating the counterexample). -/
def jsHasField : JsValue → String → Bool
  | .object fs, k => fs.any (fun p => p.1 == k)
  | _, _ => false

theorem retryLoop_ne_badRequest (attempt : ℕ → Except AttemptError RecommendationResult)
    (cache : CacheMap) (key : String) (now : ℤ) :
    ∀ fuel count, (retryLoop attempt cache key now fuel count).1 ≠ .badRequest := by
  intro fuel
  induction fuel with
  | zero => intro count; simp [retryLoop]
  | succ n ih =>
    intro count
    cases h : attempt count with
    | ok r => simp [retryLoop, h]
    | error e =>
      simp only [retryLoop, h]
      exact ih (count + 1)

theorem validRequired_eq_false_iff (body : JsValue) :
    validRequired body = false ↔
      (jsTruthy (jsGetD body "location") = false ∨
       jsTruthy (jsGetD body "soilType") = false ∨
       jsTruthy (jsGetD body "waterAvailability") = false) := by
  cases h1 : jsTruthy (jsGetD body "location") <;>
    cases h2 : jsTruthy (jsGetD body "soilType") <;>
      cases h3 : jsTruthy (jsGetD body "waterAvailability") <;>
        simp [validRequired, h1, h2, h3]

/-- C9 (amended): on a cache miss with an object request body, the
handler returns the 400 "Missing required farm data fields" response iff
one of the three required properties reads as *falsy* — absent (reading
as `undefined`), or present with value null, false, 0 or "" — and in the
rejection case zero attempts are made, i.e. the external
text-generation service is never called.  The absence of any other field
never triggers the rejection, since the test reads only those three
properties. -/
theorem claim9_validation (attempt : ℕ → Except AttemptError RecommendationResult)
    (cache : CacheMap) (body : JsValue) (now : ℤ)
    (hmiss : cacheGet cache (jsonStringify body) now = none)
    (hobj : isJsObject body = true) :
    ((handleRequest attempt cache body now).1 = .badRequest ↔
      (jsTruthy (jsGetD body "location") = false ∨
       jsTruthy (jsGetD body "soilType") = false ∨
       jsTruthy (jsGetD body "waterAvailability") = false))
    ∧ ((handleRequest attempt cache body now).1 = .badRequest →
        (handleRequest attempt cache body now).2.2 = 0) := by
  have hiff := validRequired_eq_false_iff body
  cases body
  case object fs =>
    by_cases hv : validRequired (.object fs) = true
    · have hr : handleRequest attempt cache (.object fs) now
          = retryLoop attempt cache (jsonStringify (.object fs)) now maxAttempts 0 := by
        simp [handleRequest, cacheCheck, hmiss, hv]
      have hnb := retryLoop_ne_badRequest attempt cache
        (jsonStringify (.object fs)) now maxAttempts 0
      rw [hr]
      refine ⟨⟨fun hbad => absurd hbad hnb, fun hdisj => ?_⟩,
        fun hbad => absurd hbad hnb⟩
      have hfalse : validRequired (.object fs) = false := hiff.mpr hdisj
      rw [hv] at hfalse
      exact Bool.noConfusion hfalse
    · have hv2 : validRequired (.object fs) = false := by
        revert hv
        cases validRequired (.object fs) <;> simp
      have hr : handleRequest attempt cache (.object fs) now
          = (.badRequest, cache, 0) := by
        simp [handleRequest, cacheCheck, hmiss, hv2]
      rw [hr]
      exact ⟨⟨fun _ => hiff.mp hv2, fun _ => rfl⟩, fun _ => rfl⟩
  all_goals simp [isJsObject] at hobj

/-- Request body with the three required fields all present but
`soilType` holding the empty string. -/
def emptySoilBody : JsValue :=
  .object [("location", .object [("name", .string "Nairobi")]),
           ("soilType", .string ""),
           ("waterAvailability", .string "rainfed")]

/-- C9 counterexample: a body in which location, soilType and
waterAvailability are all *present* (soilType = "") is still rejected
with the 400 response — refuting "rejects ... if and only if the
location, soil type, or water availability field is missing". -/
theorem claim9_counterexample :
    (handleRequest (fun _ => .error .transport) (fun _ => none) emptySoilBody 0).1
        = .badRequest
    ∧ jsHasField emptySoilBody "location" = true
    ∧ jsHasField emptySoilBody "soilType" = true
    ∧ jsHasField emptySoilBody "waterAvailability" = true := by
  refine ⟨by decide, by decide, by decide, by decide⟩

/-- Request body with `soilType` absent. -/
def missingSoilBody : JsValue :=
  .object [("location", .object [("name", .string "Nairobi")]),
           ("waterAvailability", .string "rainfed")]

/-- Witness for C9 at a body whose soilType field is absent. -/
theorem claim9_validation_witness :
    ((handleRequest (fun _ => .error .transport) (fun _ => none) missingSoilBody 0).1
        = .badRequest ↔
      (jsTruthy (jsGetD missingSoilBody "location") = false ∨
       jsTruthy (jsGetD missingSoilBody "soilType") = false ∨
       jsTruthy (jsGetD missingSoilBody "waterAvailability") = false))
    ∧ ((handleRequest (fun _ => .error .transport) (fun _ => none) missingSoilBody 0).1
          = .badRequest →
        (handleRequest (fun _ => .error .transport) (fun _ => none) missingSoilBody 0).2.2
          = 0) :=
  claim9_validation (fun _ => .error .transport) (fun _ => none) missingSoilBody 0 rfl rfl

/-! ## Claim C8 -/

/-- Key lists that are permutations of one another and list their keys
in the same order are equal (given duplicate-free keys). -/
theorem perm_same_key_order_eq {β : Type} :
    ∀ (fs gs : List (String × β)), fs.Perm gs →
      fs.map Prod.fst = gs.map Prod.fst →
      (fs.map Prod.fst).Nodup → fs = gs := by
  intro fs
  induction fs with
  | nil =>
    intro gs hperm _ _
    exact (List.Perm.eq_nil hperm.symm).symm
  | cons a fs2 ih =>
    intro gs hperm horder hnd
    cases gs with
    | nil => simp at horder
    | cons b gs2 =>
      obtain ⟨hk, horder2⟩ : a.1 = b.1 ∧ fs2.map Prod.fst = gs2.map Prod.fst := by
        simpa using horder
      rw [List.map_cons, List.nodup_cons] at hnd
      obtain ⟨hnd1, hnd2⟩ := hnd
      have hmem : a ∈ b :: gs2 := hperm.mem_iff.mp (by simp)
      have hab : a = b := by
        rcases List.mem_cons.mp hmem with h | h
        · exact h
        · exfalso
          have : a.1 ∈ gs2.map Prod.fst := List.mem_map.mpr ⟨a, h, rfl⟩
          rw [← horder2] at this
          exact hnd1 this
      subst hab
      have hperm2 : fs2.Perm gs2 := hperm.cons_inv
      rw [ih gs2 hperm2 horder2 hnd2]

/-- C8 (amended): the cache key is `JSON.stringify` of the request in
field *insertion* order.  Two structurally equal request objects (field
lists that are permutations of one another, keys duplicate-free) produce
identical cache keys whenever they also list their fields in the same
order; the counterexample shows the keys differ as soon as the order
differs, because the serialization is not canonicalized. -/
theorem claim8_stable_serialization (fs gs : List (String × JsValue))
    (hperm : fs.Perm gs)
    (horder : fs.map Prod.fst = gs.map Prod.fst)
    (hnd : (fs.map Prod.fst).Nodup) :
    jsonStringify (.object fs) = jsonStringify (.object gs) := by
  rw [perm_same_key_order_eq fs gs hperm horder hnd]

/-- The example request's fields. -/
def reqFieldsA : List (String × JsValue) :=
  [("location", .object [("name", .string "Nairobi")]),
   ("soilType", .string "Loamy"),
   ("waterAvailability", .string "rainfed")]

/-- The same fields with the first two listed in the other order. -/
def reqFieldsB : List (String × JsValue) :=
  [("soilType", .string "Loamy"),
   ("location", .object [("name", .string "Nairobi")]),
   ("waterAvailability", .string "rainfed")]

/-- C8 counterexample: the two request records are structurally equal
(one field list is a permutation of the other) yet `JSON.stringify`
gives them different cache keys — the fingerprint is not a canonical,
field-order-independent serialization. -/
theorem claim8_counterexample :
    reqFieldsA.Perm reqFieldsB
    ∧ jsonStringify (.object reqFieldsA) ≠ jsonStringify (.object reqFieldsB) := by
  constructor
  · exact List.Perm.swap _ _ _
  · decide

/-- Witness for C8 with both hypotheses discharged at the example
fields. -/
theorem claim8_stable_serialization_witness :
    jsonStringify (.object reqFieldsA) = jsonStringify (.object reqFieldsA) :=
  claim8_stable_serialization reqFieldsA reqFieldsA (List.Perm.refl _) rfl (by decide)

/-! ## Claim C6 -/

theorem lookupFieldD_setFieldObj_self (fs : List (String × JsValue))
    (k : String) (v : JsValue) :
    lookupFieldD (setFieldObj fs k v) k = v := by
  induction fs with
  | nil => simp [setFieldObj, lookupFieldD]
  | cons p rest ih =>
    obtain ⟨k0, w⟩ := p
    by_cases h : k0 = k
    · simp [setFieldObj, lookupFieldD, h]
    · simp [setFieldObj, lookupFieldD, h, ih]

theorem fixTopPicksJs_objects (cs : List JsValue) : ∀ has : Bool,
    cs.all isJsObject = true →
    ∃ out has2, fixTopPicksJs cs has = .ok (out, has2)
      ∧ out.all isJsObject = true := by
  induction cs with
  | nil => intro has _; exact ⟨[], has, rfl, rfl⟩
  | cons c rest ih =>
    intro has hall
    rw [List.all_cons, Bool.and_eq_true] at hall
    obtain ⟨hc, hrest⟩ := hall
    cases c
    case object fsc =>
      by_cases htp : jsTruthy (jsGetD (.object fsc) "isTopPick") = true
      · cases has
        · obtain ⟨out, has2, heq, hobj⟩ := ih true hrest
          refine ⟨.object fsc :: out, has2, ?_, ?_⟩
          · simp [fixTopPicksJs, htp, heq]
          · simp [List.all_cons, isJsObject, hobj]
        · obtain ⟨out, has2, heq, hobj⟩ := ih true hrest
          refine ⟨.object (setFieldObj fsc "isTopPick" (.boolean false)) :: out,
            has2, ?_, ?_⟩
          · simp [fixTopPicksJs, htp, heq]
          · simp [List.all_cons, isJsObject, hobj]
      · obtain ⟨out, has2, heq, hobj⟩ := ih has hrest
        refine ⟨.object fsc :: out, has2, ?_, ?_⟩
        · simp [fixTopPicksJs, htp, heq]
        · simp [List.all_cons, isJsObject, hobj]
    all_goals simp [isJsObject] at hc

theorem setTopPickAtJs_objects (cs : List JsValue) : ∀ i : ℕ,
    cs.all isJsObject = true → ∃ out, setTopPickAtJs cs i = .ok out := by
  induction cs with
  | nil => intro i _; exact ⟨[], rfl⟩
  | cons c rest ih =>
    intro i hall
    rw [List.all_cons, Bool.and_eq_true] at hall
    obtain ⟨hc, hrest⟩ := hall
    cases i with
    | zero =>
      cases c
      case object fsc =>
        exact ⟨.object (setFieldObj fsc "isTopPick" (.boolean true)) :: rest, rfl⟩
      all_goals simp [isJsObject] at hc
    | succ n =>
      obtain ⟨out, heq⟩ := ih n hrest
      exact ⟨c :: out, by simp [setTopPickAtJs, heq]⟩

theorem normalizeCategoryJs_ok (c : JsValue) (h : jsSafeCategory c = true) :
    exceptIsOk (normalizeCategoryJs c) = true := by
  cases c
  case array es => rfl
  case object fs =>
    cases hcrops : lookupFieldD fs "crops"
    case array cs =>
      have hall : cs.all isJsObject = true := by
        simpa [jsSafeCategory, hcrops] using h
      obtain ⟨out, has2, hfix, hobj⟩ := fixTopPicksJs_objects cs false hall
      by_cases hcond : has2 = false ∧ 0 < out.length
      · obtain ⟨out2, hset⟩ := setTopPickAtJs_objects out (highestScoringIdxJs out) hobj
        simp [normalizeCategoryJs, hcrops, jsTruthy, hfix, hcond, hset, exceptIsOk,
          Bind.bind, Except.bind, Functor.map, Except.map, Pure.pure, Except.pure]
      · simp [normalizeCategoryJs, hcrops, jsTruthy, hfix, hcond, exceptIsOk,
          Bind.bind, Except.bind, Functor.map, Except.map, Pure.pure, Except.pure]
    case null =>
      simp [normalizeCategoryJs, hcrops, jsTruthy, lookupFieldD_setFieldObj_self,
        fixTopPicksJs, exceptIsOk,
        Bind.bind, Except.bind, Functor.map, Except.map, Pure.pure, Except.pure]
    case undefined =>
      simp [normalizeCategoryJs, hcrops, jsTruthy, lookupFieldD_setFieldObj_self,
        fixTopPicksJs, exceptIsOk,
        Bind.bind, Except.bind, Functor.map, Except.map, Pure.pure, Except.pure]
    case boolean b =>
      simp only [jsSafeCategory, hcrops, jsTruthy, Bool.not_eq_true'] at h
      simp [normalizeCategoryJs, hcrops, jsTruthy, h, lookupFieldD_setFieldObj_self,
        fixTopPicksJs, exceptIsOk,
        Bind.bind, Except.bind, Functor.map, Except.map, Pure.pure, Except.pure]
    case number q =>
      simp only [jsSafeCategory, hcrops, jsTruthy] at h
      have hq : q = 0 := by simpa using h
      simp [normalizeCategoryJs, hcrops, jsTruthy, hq, lookupFieldD_setFieldObj_self,
        fixTopPicksJs, exceptIsOk,
        Bind.bind, Except.bind, Functor.map, Except.map, Pure.pure, Except.pure]
    case string str =>
      simp only [jsSafeCategory, hcrops, jsTruthy] at h
      have hs : str = "" := by simpa using h
      simp [normalizeCategoryJs, hcrops, jsTruthy, hs, lookupFieldD_setFieldObj_self,
        fixTopPicksJs, exceptIsOk,
        Bind.bind, Except.bind, Functor.map, Except.map, Pure.pure, Except.pure]
    case object gs => simp [jsSafeCategory, hcrops, jsTruthy] at h
  all_goals simp [jsSafeCategory] at h

theorem mapCategoriesJs_ok (cats : List JsValue)
    (h : cats.all jsSafeCategory = true) :
    exceptIsOk (mapCategoriesJs cats) = true := by
  induction cats with
  | nil => rfl
  | cons c rest ih =>
    rw [List.all_cons, Bool.and_eq_true] at h
    obtain ⟨hc, hrest⟩ := h
    have h1 := normalizeCategoryJs_ok c hc
    have h2 := ih hrest
    cases hv : normalizeCategoryJs c with
    | error e => rw [hv] at h1; simp [exceptIsOk] at h1
    | ok v =>
      cases hvs : mapCategoriesJs rest with
      | error e => rw [hvs] at h2; simp [exceptIsOk] at h2
      | ok vs =>
        simp [mapCategoriesJs, hv, hvs, exceptIsOk,
          Bind.bind, Except.bind, Pure.pure, Except.pure]

/-- C6 (amended): once step 1 passes (`categories` is an array), the
repair is total *provided* every category element is an array or an
object whose `crops` field is falsy or an array of objects; it is not
total over arbitrary element shapes — a `null` category element (see the
counterexample) makes the JavaScript throw a TypeError on the
`category.crops` read, and primitive categories or truthy non-array
`crops` values throw likewise. -/
theorem claim6_normalizer_total_on_safe (fs : List (String × JsValue))
    (cats : List JsValue)
    (hcats : lookupFieldD fs "categories" = .array cats)
    (hsafe : cats.all jsSafeCategory = true) :
    exceptIsOk (normalizeParsedJs (.object fs)) = true := by
  have h := mapCategoriesJs_ok cats hsafe
  cases hm : mapCategoriesJs cats with
  | error e => rw [hm] at h; simp [exceptIsOk] at h
  | ok outs => simp [normalizeParsedJs, hcats, hm, exceptIsOk]

/-- C6 counterexample: `{"categories":[null]}` is accepted by step 1
(its `categories` field *is* an array), yet normalization throws — the
`category.crops` read on the null element is a TypeError — refuting
"never throws ... for any shape of the individual category elements". -/
theorem claim6_counterexample :
    exceptIsOk (normalizeParsedJs (.object [("categories", .array [.null])])) = false := by
  decide

/-- Fields of a well-shaped parsed response. -/
def safeParsedFields : List (String × JsValue) :=
  [("categories", .array
      [.object [("type", .string "Vegetables"),
                ("crops", .array [.object [("name", .string "Tomato"),
                                           ("score", .number 80)]])],
       .object [("type", .string "Grains & Cereals")]]),
   ("reasoning", .string "ok")]

/-- Witness for C6 on a well-shaped parsed response. -/
theorem claim6_normalizer_total_on_safe_witness :
    exceptIsOk (normalizeParsedJs (.object safeParsedFields)) = true :=
  claim6_normalizer_total_on_safe safeParsedFields _ rfl (by decide)

/-! ## Claim C4 -/

/-- C4 (amended): a numeric water availability maps by the fixed
thresholds (< 10 limited, < 15 rainfed, < 25 basic-irrigation, else
full-irrigation) to exactly one of the four descriptive categories, an
all-digit string likewise via its numeric value, and any other string —
including an already-descriptive category, and any string with a
non-digit character such as "12.5" — is left unchanged; hence a
descriptive value stays itself, but a non-numeric, non-descriptive
string does *not* resolve to one of the four categories (see the
counterexample). -/
theorem claim4_water_mapping (fd : FarmDataClient) :
    (∀ q, fd.waterAvailability = .number q →
        (convertWaterAvailability fd).waterAvailability
          = .string (waterCategoryOfInches q))
    ∧ (∀ s, fd.waterAvailability = .string s → isAllDigits s = true →
        (convertWaterAvailability fd).waterAvailability
          = .string (waterCategoryOfInches ((digitStringToNat s : ℕ) : ℚ)))
    ∧ (∀ s, fd.waterAvailability = .string s → isAllDigits s = false →
        convertWaterAvailability fd = fd)
    ∧ (∀ q : ℚ,
        waterCategoryOfInches q ∈
            ["limited", "rainfed", "basic-irrigation", "full-irrigation"]
        ∧ (q < 10 → waterCategoryOfInches q = "limited")
        ∧ (10 ≤ q → q < 15 → waterCategoryOfInches q = "rainfed")
        ∧ (15 ≤ q → q < 25 → waterCategoryOfInches q = "basic-irrigation")
        ∧ (25 ≤ q → waterCategoryOfInches q = "full-irrigation")) := by
  refine ⟨?_, ?_, ?_, ?_⟩
  · intro q hq
    simp [convertWaterAvailability, hq]
  · intro s hs hd
    simp [convertWaterAvailability, hs, hd]
  · intro s hs hd
    simp [convertWaterAvailability, hs, hd]
  · intro q
    unfold waterCategoryOfInches
    refine ⟨?_, ?_, ?_, ?_, ?_⟩
    · split_ifs <;> simp
    · intro h1
      simp [h1]
    · intro h1 h2
      rw [if_neg (by linarith), if_pos h2]
    · intro h1 h2
      rw [if_neg (by linarith), if_neg (by linarith), if_pos h2]
    · intro h1
      rw [if_neg (by linarith), if_neg (by linarith), if_neg (by linarith)]

/-- C4 counterexample: the caller-supplied string "12.5" (a numeric
value in decimal notation, rejected by the all-digit regex) is left
unconverted and is none of the four descriptive categories — refuting
"for every caller-supplied water-availability value ... the request's
water availability resolves to exactly one of the four descriptive
categories". -/
theorem claim4_counterexample :
    (convertWaterAvailability (baseFarmData (.string "12.5"))).waterAvailability
        = .string "12.5"
    ∧ ¬ ("12.5" ∈ ["limited", "rainfed", "basic-irrigation", "full-irrigation"]) := by
  constructor
  · decide
  · decide

/-- Witness for C4 covering all three conversion branches and a
threshold evaluation. -/
theorem claim4_water_mapping_witness :
    (convertWaterAvailability (baseFarmData (.number 7))).waterAvailability
        = .string (waterCategoryOfInches 7)
    ∧ (convertWaterAvailability (baseFarmData (.string "14"))).waterAvailability
        = .string (waterCategoryOfInches ((digitStringToNat "14" : ℕ) : ℚ))
    ∧ convertWaterAvailability (baseFarmData (.string "limited"))
        = baseFarmData (.string "limited")
    ∧ waterCategoryOfInches 7 = "limited" :=
  ⟨(claim4_water_mapping (baseFarmData (.number 7))).1 7 rfl,
   (claim4_water_mapping (baseFarmData (.string "14"))).2.1 "14" rfl (by decide),
   (claim4_water_mapping (baseFarmData (.string "limited"))).2.2.1 "limited" rfl
     (by decide),
   ((claim4_water_mapping (baseFarmData (.number 7))).2.2.2 7).2.1 (by norm_num)⟩

/-! ## Claim C10 -/

/-- C10: the cumulative effect of `getCropRecommendations` on the
caller's `farmData` record: when the supplied water availability is a
number or an all-digit string, the record's `waterAvailability` is
overwritten with the descriptive category and `waterAvailabilityInches`
is set to the numeric value (and nothing later in the function restores
them — the effect *is* the final state of the caller's record); a
water-availability string containing any non-digit character (such as
"12.5") leaves the record untouched. -/
theorem claim10_farm_data_mutation (fd : FarmDataClient) :
    (∀ q, fd.waterAvailability = .number q →
        getCropRecommendationsEffect fd
          = { fd with waterAvailability := .string (waterCategoryOfInches q),
                      waterAvailabilityInches := some q })
    ∧ (∀ s, fd.waterAvailability = .string s → isAllDigits s = true →
        getCropRecommendationsEffect fd
          = { fd with
                waterAvailability :=
                  .string (waterCategoryOfInches ((digitStringToNat s : ℕ) : ℚ)),
                waterAvailabilityInches := some ((digitStringToNat s : ℕ) : ℚ) })
    ∧ (∀ s, fd.waterAvailability = .string s →
        (∃ ch ∈ s.toList, ch.isDigit = false) →
        getCropRecommendationsEffect fd = fd) := by
  refine ⟨?_, ?_, ?_⟩
  · intro q hq
    simp [getCropRecommendationsEffect, convertWaterAvailability, hq]
  · intro s hs hd
    simp [getCropRecommendationsEffect, convertWaterAvailability, hs, hd]
  · intro s hs hex
    have hall : s.toList.all Char.isDigit = false := by
      obtain ⟨ch, hmem, hch⟩ := hex
      cases hA : s.toList.all Char.isDigit with
      | false => rfl
      | true =>
        have := List.all_eq_true.mp hA ch hmem
        rw [hch] at this
        exact Bool.noConfusion this
    have hd : isAllDigits s = false := by
      unfold isAllDigits
      rw [hall, Bool.and_false]
    simp [getCropRecommendationsEffect, convertWaterAvailability, hs, hd]

/-- Witness for C10: a numeric value is converted in place (category and
inches fields written), and the decimal string "12.5" leaves the
caller's record untouched. -/
theorem claim10_farm_data_mutation_witness :
    getCropRecommendationsEffect (baseFarmData (.number 30))
      = { baseFarmData (.number 30) with
            waterAvailability := .string (waterCategoryOfInches 30),
            waterAvailabilityInches := some 30 }
    ∧ getCropRecommendationsEffect (baseFarmData (.string "12.5"))
        = baseFarmData (.string "12.5") :=
  ⟨(claim10_farm_data_mutation (baseFarmData (.number 30))).1 30 rfl,
   (claim10_farm_data_mutation (baseFarmData (.string "12.5"))).2.2 "12.5" rfl
     ⟨'.', by decide, by decide⟩⟩
